import Mathlib


namespace Sebs

/-!
Verification of the core build engine of the SEBS incremental build system
(builder, caching runner, command protocol), via a shallow embedding of the
Python sources into Lean.  Artifacts and actions are identified by natural
numbers; file systems, timestamps and cache contents are supplied as explicit
environments.  Timestamps are integers (the code only compares them).
-/

/-- Per-(config, artifact) derived state, as computed by
`_ArtifactState.__init__` in builder.py. -/

structure ArtifactStateData where
  isDirty : Bool
  timestamp : Int
deriving DecidableEq, Repr

/-- The fields of an `_ActionState` consulted by `__decide_if_dirty`:
readiness, enumerated inputs and outputs (artifact ids), and disk inputs
(paths). -/

structure ActionStateData where
  isReady : Bool
  inputs : List Nat
  outputs : List Nat
  diskInputs : List String
deriving DecidableEq, Repr

/-- Environment supplying the lookups `__decide_if_dirty` performs:
the state map (for the producing action and for each input artifact),
`os.path.exists` / `os.path.getmtime` for disk inputs, and the defining
build-definition file's timestamp (`artifact.action.rule.context.timestamp`). -/

structure DirtyEnv where
  actionState : Nat → ActionStateData
  inputState : Nat → ArtifactStateData
  diskExists : String → Bool
  diskMtime : String → Int
  defFileTimestamp : Nat → Int

/-- `_ArtifactState.__decide_if_dirty` (builder.py lines 115-166), as a pure
function of the producing action (none for a source artifact), this
artifact's id and recorded timestamp, and the environment.  The Python early
returns become nested conditionals; the two per-element loops become
`List.any`. -/

def decideIfDirty (env : DirtyEnv) (producer : Option Nat) (artifactId : Nat)
    (timestamp : Int) : Bool :=
  match producer with
  | none => false
  | some act =>
    let st := env.actionState act
    if !st.isReady then true
    else if !(st.outputs.contains artifactId) then true
    else if st.inputs.any (fun i =>
        (env.inputState i).isDirty
          || decide (timestamp + 1 < (env.inputState i).timestamp)) then true
    else if st.diskInputs.any (fun d =>
        !env.diskExists d || decide (timestamp + 1 < env.diskMtime d)) then true
    else if decide (timestamp < env.defFileTimestamp act) then true
    else false

/-- Errors raised during state initialization: `DefinitionError` for a missing
source file, and a failed `assert` for a source artifact with an uncomputable
real name. -/

inductive InitError where
  | definitionError (msg : String)
  | assertionFailure
deriving DecidableEq, Repr

/-- `_ArtifactState.__init__` (builder.py lines 84-113).  `realName` is the
result of `state_map.real_name` (none when some referenced artifact is still
dirty); `rootExists` / `rootMtime` model `root_dir`. -/

def artifactStateInit (env : DirtyEnv) (rootExists : String → Bool)
    (rootMtime : String → Int) (producer : Option Nat) (artifactId : Nat)
    (realName : Option String) : Except InitError ArtifactStateData :=
  match realName with
  | none =>
    if producer.isSome then .ok ⟨true, -1⟩
    else .error .assertionFailure
  | some rn =>
    if rootExists rn then
      let ts := rootMtime rn
      .ok ⟨decideIfDirty env producer artifactId ts, ts⟩
    else if producer.isSome then .ok ⟨true, -1⟩
    else .error (.definitionError "The required source file does not exist.")

/-! ### The caching runner (runner.py, `CachingRunner`) -/

/-- `str(len(s)) + " " + s`: the three consecutive `hasher.update` calls that
length-prefix a field in `CachingRunner.__hash`. -/

def lengthPrefixed (s : String) : String := toString s.length ++ " " ++ s

/-- Python's `list.sort()` on strings: ascending stable sort. -/

def sortNames (l : List String) : List String := List.insertionSort (· ≤ ·) l

/-- `CachingRunner.__hash` (runner.py lines 353-397) modelled as the
concatenation of all bytes fed to the MD5 hasher, built by left-folding over
the three sorted name lists exactly as the code's loops do.  `cmdHash` stands
for the bytes contributed by `action.command.hash(hasher)`. -/

def hashOf (realNameMap : Nat → String) (rootRead : String → String)
    (inputs : List Nat) (diskInputs : List String) (diskRead : String → String)
    (outputs : List Nat) (cmdHash : String) : String :=
  let inputNames := sortNames (inputs.map realNameMap)
  let acc1 := inputNames.foldl
    (fun a n => a ++ "i" ++ lengthPrefixed n ++ lengthPrefixed (rootRead n)) ""
  let diskNames := sortNames diskInputs
  let acc2 := diskNames.foldl
    (fun a d => a ++ "d" ++ lengthPrefixed d ++ lengthPrefixed (diskRead d)) acc1
  let outputNames := sortNames (outputs.map realNameMap)
  let acc3 := outputNames.foldl (fun a n => a ++ "o" ++ lengthPrefixed n) acc2
  acc3 ++ cmdHash

/-- Concatenation of a list of strings. -/

def strConcat (l : List String) : String := l.foldr (· ++ ·) ""

/-- The hash byte stream exactly as the specification describes it: per-input
records, then per-disk-input records, then per-output records, then the
command's own contribution. -/

def hashStreamDescribed (realNameMap : Nat → String) (rootRead : String → String)
    (inputs : List Nat) (diskInputs : List String) (diskRead : String → String)
    (outputs : List Nat) (cmdHash : String) : String :=
  strConcat ((sortNames (inputs.map realNameMap)).map
      (fun n => "i" ++ lengthPrefixed n ++ lengthPrefixed (rootRead n)))
    ++ strConcat ((sortNames diskInputs).map
      (fun d => "d" ++ lengthPrefixed d ++ lengthPrefixed (diskRead d)))
    ++ strConcat ((sortNames (outputs.map realNameMap)).map
      (fun n => "o" ++ lengthPrefixed n))
    ++ cmdHash

/-- A cache key: `(config.name, output real name)`. -/

def CacheKey := String × String
deriving DecidableEq

/-- The persistent cache.  `none` means the key is absent; `some none` is the
sentinel (`None` stored in the Python dict); `some (some h)` is a recorded
hash. -/

def CacheMap := CacheKey → Option (Option String)

/-- `self.__cache.get(key)`: absent and sentinel both read back as `None`. -/

def cacheGet (c : CacheMap) (k : CacheKey) : Option String := (c k).join

/-- `self.__cache[key] = v`. -/

def cacheSet (c : CacheMap) (k : CacheKey) (v : Option String) : CacheMap :=
  fun k2 => if k2 = k then some v else c k2

/-- Environment of a single `CachingRunner.run` call: configuration name, the
real-name map, the configuration root directory (pre-run contents), the OS
file system for disk inputs, the command's hash bytes, the post-run state of
both file systems, the disk inputs re-enumerated after a successful run, and
whether the wrapped inner runner succeeds. -/

structure CachingEnv where
  configName : String
  realNameMap : Nat → String
  rootRead : String → String
  rootExists : String → Bool
  diskExists : String → Bool
  diskRead : String → String
  cmdHash : String
  postRootRead : String → String
  postDiskRead : String → String
  postDiskInputs : List String
  innerSucceeds : Bool

/-- The cache key of an output artifact. -/

def cacheKeyOf (env : CachingEnv) (o : Nat) : CacheKey :=
  (env.configName, env.realNameMap o)

/-- `CachingRunner.__can_skip` (runner.py lines 317-351): returns the skip
decision together with the new hash when it was computed, mirroring the
early returns. -/

def canSkip (env : CachingEnv) (cache : CacheMap) (inputs : List Nat)
    (outputs : List Nat) (diskInputs : List String) : Bool × Option String :=
  match outputs with
  | [] => (false, none)
  | o0 :: rest =>
    match cacheGet cache (cacheKeyOf env o0) with
    | none => (false, none)
    | some lastHash =>
      if rest.all (fun o => cacheGet cache (cacheKeyOf env o) = some lastHash) then
        if diskInputs.all env.diskExists then
          let newHash := hashOf env.realNameMap env.rootRead inputs diskInputs
              env.diskRead outputs env.cmdHash
          if newHash = lastHash then
            if outputs.all (fun o => env.rootExists (env.realNameMap o)) then
              (true, some newHash)
            else (false, some newHash)
          else (false, some newHash)
        else (false, none)
      else (false, none)

/-- Python `set(a) != set(b)` is false exactly when the two lists contain the
same elements. -/

def sameElements (a b : List String) : Bool :=
  a.all (fun x => b.contains x) && b.all (fun x => a.contains x)

/-- The hash stored after a successful inner run: recomputed (with the
re-enumerated disk inputs and post-run file contents) when no hash was
computed by `__can_skip` or when the disk-input set changed, otherwise the
hash from `__can_skip`. -/

def storedHash (env : CachingEnv) (inputs : List Nat) (outputs : List Nat)
    (diskInputs : List String) (preHash : Option String) : String :=
  let recomputed := hashOf env.realNameMap env.postRootRead inputs
      env.postDiskInputs env.postDiskRead outputs env.cmdHash
  match preHash with
  | none => recomputed
  | some h => if sameElements diskInputs env.postDiskInputs then h else recomputed

/-- Observable events of one `CachingRunner.run` call, in order. -/

inductive RunnerEvent where
  | setSentinel (key : CacheKey)
  | invokeInner
  | storeHash (key : CacheKey) (h : String)
  | touchOutput (name : String)
deriving DecidableEq

/-- Result of one `CachingRunner.run` call. -/

structure CachingRunResult where
  cache : CacheMap
  success : Bool
  skipped : Bool
  touched : List String
  message : Option String
  trace : List RunnerEvent

/-- `CachingRunner.run` (runner.py lines 271-315).  The skip branch touches
every output and reports "no changes"; the other branch writes the sentinel
into every output's cache entry, invokes the inner runner, and on success
stores `storedHash` under every output's key. -/

def cachingRun (env : CachingEnv) (cache : CacheMap) (inputs : List Nat)
    (outputs : List Nat) (diskInputs : List String) : CachingRunResult :=
  let skip := canSkip env cache inputs outputs diskInputs
  if skip.1 then
    { cache := cache, success := true, skipped := true,
      touched := outputs.map env.realNameMap,
      message := some "no changes",
      trace := outputs.map (fun o => .touchOutput (env.realNameMap o)) }
  else
    let cache1 := outputs.foldl (fun c o => cacheSet c (cacheKeyOf env o) none) cache
    if env.innerSucceeds then
      let h := storedHash env inputs outputs diskInputs skip.2
      let cache2 := outputs.foldl
        (fun c o => cacheSet c (cacheKeyOf env o) (some h)) cache1
      { cache := cache2, success := true, skipped := false, touched := [],
        message := none,
        trace := outputs.map (fun o => .setSentinel (cacheKeyOf env o))
          ++ [.invokeInner]
          ++ outputs.map (fun o => .storeHash (cacheKeyOf env o) h) }
    else
      { cache := cache1, success := false, skipped := false, touched := [],
        message := none,
        trace := outputs.map (fun o => .setSentinel (cacheKeyOf env o))
          ++ [.invokeInner] }

/-- An environment in which a single-output action can be skipped: the cache
holds the matching hash for output real name "out". -/

def envSkip : CachingEnv :=
  { configName := "cfg", realNameMap := fun _ => "out",
    rootRead := fun _ => "", rootExists := fun _ => true,
    diskExists := fun _ => true, diskRead := fun _ => "",
    cmdHash := "CMD", postRootRead := fun _ => "",
    postDiskRead := fun _ => "", postDiskInputs := [],
    innerSucceeds := true }

/-- The cache matching `envSkip`: output "out" carries the hash of the
no-input action. -/

def cacheSkip : CacheMap :=
  fun k => if k = ("cfg", "out") then some (some "o3 outCMD") else none

/-- Like `envSkip` but the wrapped inner runner fails. -/

def envFail : CachingEnv :=
  { configName := "cfg", realNameMap := fun _ => "out",
    rootRead := fun _ => "", rootExists := fun _ => true,
    diskExists := fun _ => true, diskRead := fun _ => "",
    cmdHash := "CMD", postRootRead := fun _ => "",
    postDiskRead := fun _ => "", postDiskInputs := [],
    innerSucceeds := false }

/-! ### The command protocol (command.py) -/

/-- Commands relevant to enumeration: `EchoCommand`, `DoAllCommand`, and
`ConditionalCommand` (with its optional false branch). -/

inductive Command where
  | echo (content : String) (out : Nat)
  | doAll (subs : List Command)
  | conditional (cond : Nat) (tCmd : Command) (fCmd : Option Command)

/-- Inputs, outputs, and disk inputs collected by an
`_ArtifactEnumeratorImpl`, in registration order. -/

structure EnumResult where
  inputs : List Nat
  outputs : List Nat
  diskInputs : List String
deriving DecidableEq, Repr

/-- `ArtifactEnumerator.add_input` (also implied by `read`). -/

def addInput (a : Nat) (st : EnumResult) : EnumResult :=
  { st with inputs := st.inputs ++ [a] }

/-- `ArtifactEnumerator.add_output`. -/

def addOutput (a : Nat) (st : EnumResult) : EnumResult :=
  { st with outputs := st.outputs ++ [a] }

mutual

/-- `enumerate_artifacts` for the embedded commands.  `envRead` is what the
enumerator's `read` returns for each artifact: its contents when it is clean,
`none` ("unknown, try again later") otherwise; reading always registers the
artifact as an input first.  `ConditionalCommand.enumerate_artifacts`
(command.py lines 423-429) descends into the true branch only when the value
reads "true", into the false branch only when it reads "false" and a false
branch exists, and into neither otherwise. -/

def enumerateArtifacts (envRead : Nat → Option String) :
    Command → EnumResult → EnumResult
  | .echo _ out, st => addOutput out st
  | .doAll subs, st => enumerateList envRead subs st
  | .conditional c tCmd fCmd, st =>
    let st1 := addInput c st
    match envRead c with
    | some v =>
      if v = "true" then enumerateArtifacts envRead tCmd st1
      else if v = "false" then enumerateFalseBranch envRead fCmd st1
      else st1
    | none => st1

/-- The `elif value == "false" and self.__false_command is not None` arm:
descend into the false branch when present, otherwise do nothing. -/

def enumerateFalseBranch (envRead : Nat → Option String) :
    Option Command → EnumResult → EnumResult
  | some fc, st => enumerateArtifacts envRead fc st
  | none, st => st

def enumerateList (envRead : Nat → Option String) :
    List Command → EnumResult → EnumResult
  | [], st => st
  | c :: rest, st => enumerateList envRead rest (enumerateArtifacts envRead c st)

end

/-- The redirection configuration of a `SubprocessCommand`: optional capture
artifacts for stdout, stderr, and exit status. -/

structure SubprocessSpec where
  captureStdout : Option Nat
  captureStderr : Option Nat
  captureExitStatus : Option Nat
deriving DecidableEq

/-- What the command context supplies to `SubprocessCommand.run`: the child's
exit code and captured text, and `get_disk_path` with no temporary creation
(`use_temporary = False`). -/

structure SubprocEnv where
  exitCode : Int
  stdoutText : String
  stderrText : String
  diskPath : Nat → Option String

/-- Result of `SubprocessCommand.run`: the returned boolean, the
`context.write` calls performed (in order), and the text written to the log. -/

structure SubprocResult where
  success : Bool
  writes : List (Nat × String)
  log : String

/-- Stdout handling in `SubprocessCommand.run`: with no capture artifact the
pipe output goes to the log; with a capture artifact lacking a disk path the
pipe output is written to the artifact; with a disk path the child writes the
file directly. -/

def stdoutEffect (spec : SubprocessSpec) (env : SubprocEnv) :
    List (Nat × String) × String :=
  match spec.captureStdout with
  | none => ([], env.stdoutText)
  | some a => if (env.diskPath a).isNone then ([(a, env.stdoutText)], "") else ([], "")

/-- Stderr handling in `SubprocessCommand.run`.  When
`capture_stderr is capture_stdout` the stream is merged into stdout
(`subprocess.STDOUT`) and produces no separate write or log text. -/

def stderrEffect (spec : SubprocessSpec) (env : SubprocEnv) :
    List (Nat × String) × String :=
  if spec.captureStderr = spec.captureStdout then ([], "")
  else
    match spec.captureStderr with
    | none => ([], env.stderrText)
    | some a => if (env.diskPath a).isNone then ([(a, env.stderrText)], "") else ([], "")

/-- `SubprocessCommand.run` (command.py lines 565-636), from the subprocess
call onward: with an exit-status capture artifact the run always succeeds and
writes "true"/"false" according to the exit code; without one it succeeds
exactly on exit code zero and otherwise logs a failure message. -/

def subprocessRun (spec : SubprocessSpec) (env : SubprocEnv)
    (formattedArgs : List String) : SubprocResult :=
  let so := stdoutEffect spec env
  let se := stderrEffect spec env
  match spec.captureExitStatus with
  | some a =>
    { success := true,
      writes := so.1 ++ se.1 ++ [(a, if env.exitCode = 0 then "true" else "false")],
      log := so.2 ++ se.2 }
  | none =>
    if env.exitCode = 0 then
      { success := true, writes := so.1 ++ se.1, log := so.2 ++ se.2 }
    else
      { success := false, writes := so.1 ++ se.1,
        log := so.2 ++ se.2 ++ "Command failed with exit code "
          ++ toString env.exitCode ++ ": "
          ++ String.intercalate " " formattedArgs ++ "\n" }

/-! ### The readiness scheduler (builder.py, `Builder` and `_ActionState`) -/

/-- Static data the builder consults in `add_action`: each action state's
readiness and blocking set (action ids). -/

structure SchedEnv where
  isReady : Nat → Bool
  blocking : Nat → List Nat

/-- Builder state touched by `add_action`: the pending flags, the pending
counter, and the ready-action queue. -/

structure BuilderState where
  isPending : Nat → Bool
  numPending : Nat
  queue : List Nat

/-- `action_state.is_pending = True` together with
`self.__num_pending += 1`. -/

def markPending (a : Nat) (s : BuilderState) : BuilderState :=
  { s with isPending := fun x => if x = a then true else s.isPending x,
           numPending := s.numPending + 1 }

/-- `Builder.add_action` (builder.py lines 302-316), fuel-indexed to express
the recursion (the Python recursion terminates because the pending set only
grows).  Already pending: no-op.  Otherwise mark pending, and either enqueue
(ready) or recurse into every blocker. -/

def addAction (env : SchedEnv) : Nat → Nat → BuilderState → BuilderState
  | 0, _, s => s
  | fuel + 1, a, s =>
    if s.isPending a then s
    else
      let s1 := markPending a s
      if env.isReady a then { s1 with queue := s1.queue ++ [a] }
      else (env.blocking a).foldl (fun st b => addAction env fuel b st) s1

/-- The `_ActionState` fields touched by `update_readiness`. -/

structure ActionStateM where
  isReady : Bool
  inputs : Option (List Nat)
  outputs : Option (List Nat)
  diskInputs : Option (List String)
  blocking : List Nat
deriving DecidableEq, Repr

/-- Environment of one `update_readiness` call: the enumeration the command
reports against the current artifact contents, each artifact's dirtiness, the
producing action of each (dirty) artifact, and each action state's readiness
and output set (for the "needed but not generated" check). -/

structure ReadinessEnv where
  enumInputs : List Nat
  enumOutputs : List Nat
  enumDiskInputs : List String
  isDirty : Nat → Bool
  producerOf : Nat → Nat
  actionReady : Nat → Bool
  actionOutputs : Nat → List Nat

/-- The loop over `enumerator.inputs` in `update_readiness` (builder.py lines
217-230): collect the producing action of every dirty input, raising a
definition error when a ready producer does not generate the needed
artifact. -/

def collectBlocking (env : ReadinessEnv) : List Nat → Except InitError (List Nat)
  | [] => .ok []
  | i :: rest =>
    if env.isDirty i then
      let b := env.producerOf i
      if env.actionReady b && !((env.actionOutputs b).contains i) then
        .error (.definitionError "needed, but not generated")
      else
        match collectBlocking env rest with
        | .error e => .error e
        | .ok bs => .ok (b :: bs)
    else collectBlocking env rest

/-- `_ActionState.update_readiness` (builder.py lines 201-240).  Returns the
updated state and whether `is_ready` changed from false to true.  An
already-ready state returns immediately with no change. -/

def updateReadiness (env : ReadinessEnv) (st : ActionStateM) :
    Except InitError (ActionStateM × Bool) :=
  if st.isReady then .ok (st, false)
  else
    match collectBlocking env env.enumInputs with
    | .error e => .error e
    | .ok bs =>
      if bs.isEmpty then
        .ok ({ st with
                isReady := true,
                inputs := some env.enumInputs,
                outputs := some env.enumOutputs,
                diskInputs := some env.enumDiskInputs,
                blocking := [] }, true)
      else .ok ({ st with blocking := bs }, false)

/-- Apply one readiness re-evaluation, keeping the old state on a definition
error. -/

def applyUpdate (st : ActionStateM) (env : ReadinessEnv) : ActionStateM :=
  match updateReadiness env st with
  | .ok (s2, _) => s2
  | .error _ => st

/-- A readiness environment that reports a newly discovered dirty input
(artifact 1, produced by the un-ready action 9). -/

def envDiscovery : ReadinessEnv :=
  { enumInputs := [1], enumOutputs := [4], enumDiskInputs := [],
    isDirty := fun i => i = 1, producerOf := fun _ => 9,
    actionReady := fun _ => false, actionOutputs := fun _ => [] }

/-- An action state that has already become ready. -/

def readyState : ActionStateM :=
  { isReady := true, inputs := some [], outputs := some [4],
    diskInputs := some [], blocking := [] }

/-- A scheduler environment where every action is ready with no blockers. -/

def envSched : SchedEnv :=
  { isReady := fun _ => true, blocking := fun _ => [] }

/-- A builder state with nothing pending and an empty queue. -/

def emptyBuilder : BuilderState :=
  { isPending := fun _ => false, numPending := 0, queue := [] }

/-- A five-deep chain of `if _ then true else _` conditionals collapses to a
disjunction; bridges the sequential early returns of `__decide_if_dirty` to
the spec's disjunctive form. -/

theorem if_chain_five (a b c d e : Bool) :
    (if a then true else if b then true else if c then true
     else if d then true else if e then true else false) =
      (a || b || c || d || e) := by
  cases a <;> cases b <;> cases c <;> cases d <;> cases e <;> simp

/-- `decideIfDirty` for a derived artifact, written as one disjunction. -/

theorem decideIfDirty_some (env : DirtyEnv) (act artifactId : Nat) (ts : Int) :
    decideIfDirty env (some act) artifactId ts =
      (!(env.actionState act).isReady
        || !((env.actionState act).outputs.contains artifactId)
        || (env.actionState act).inputs.any (fun i =>
              (env.inputState i).isDirty
                || decide (ts + 1 < (env.inputState i).timestamp))
        || (env.actionState act).diskInputs.any (fun d =>
              !env.diskExists d || decide (ts + 1 < env.diskMtime d))
        || decide (ts < env.defFileTimestamp act)) := by
  exact if_chain_five (!(env.actionState act).isReady)
      (!((env.actionState act).outputs.contains artifactId))
      ((env.actionState act).inputs.any (fun i =>
          (env.inputState i).isDirty
            || decide (ts + 1 < (env.inputState i).timestamp)))
      ((env.actionState act).diskInputs.any (fun d =>
          !env.diskExists d || decide (ts + 1 < env.diskMtime d)))
      (decide (ts < env.defFileTimestamp act))

/-- C1: For a derived artifact whose real name is computable and whose file
exists, the state is recorded with the file's mtime, and it is dirty exactly
when: the producing action is not ready, or the artifact is not among the
action's outputs, or some input artifact is dirty, or some input's timestamp
exceeds this artifact's by more than one second, or some disk input is missing
or newer by more than one second, or the defining build-definition file's
timestamp strictly exceeds this artifact's. -/

theorem derived_artifact_dirty_iff (env : DirtyEnv) (rootExists : String → Bool)
    (rootMtime : String → Int) (act artifactId : Nat) (rn : String)
    (hex : rootExists rn = true) :
    artifactStateInit env rootExists rootMtime (some act) artifactId (some rn) =
      .ok ⟨decideIfDirty env (some act) artifactId (rootMtime rn), rootMtime rn⟩ ∧
    (decideIfDirty env (some act) artifactId (rootMtime rn) = true ↔
      ((env.actionState act).isReady = false ∨
       artifactId ∉ (env.actionState act).outputs ∨
       (∃ i ∈ (env.actionState act).inputs, (env.inputState i).isDirty = true) ∨
       (∃ i ∈ (env.actionState act).inputs,
          rootMtime rn + 1 < (env.inputState i).timestamp) ∨
       (∃ d ∈ (env.actionState act).diskInputs,
          env.diskExists d = false ∨ rootMtime rn + 1 < env.diskMtime d) ∨
       rootMtime rn < env.defFileTimestamp act)) := by
  constructor
  · simp [artifactStateInit, hex]
  · rw [decideIfDirty_some]
    have hc : ((env.actionState act).outputs.contains artifactId = false) ↔
        artifactId ∉ (env.actionState act).outputs := by simp
    simp only [Bool.or_assoc, Bool.or_eq_true, Bool.not_eq_true', List.any_eq_true,
      decide_eq_true_eq, hc]
    constructor
    · rintro (h | h | ⟨i, hi, hd | hd⟩ | ⟨d, hd, hm | hn⟩ | h)
      · exact Or.inl h
      · exact Or.inr (Or.inl h)
      · exact Or.inr (Or.inr (Or.inl ⟨i, hi, hd⟩))
      · exact Or.inr (Or.inr (Or.inr (Or.inl ⟨i, hi, hd⟩)))
      · exact Or.inr (Or.inr (Or.inr (Or.inr (Or.inl ⟨d, hd, Or.inl hm⟩))))
      · exact Or.inr (Or.inr (Or.inr (Or.inr (Or.inl ⟨d, hd, Or.inr hn⟩))))
      · exact Or.inr (Or.inr (Or.inr (Or.inr (Or.inr h))))
    · rintro (h | h | ⟨i, hi, hd⟩ | ⟨i, hi, hd⟩ | ⟨d, hd, hm | hn⟩ | h)
      · exact Or.inl h
      · exact Or.inr (Or.inl h)
      · exact Or.inr (Or.inr (Or.inl ⟨i, hi, Or.inl hd⟩))
      · exact Or.inr (Or.inr (Or.inl ⟨i, hi, Or.inr hd⟩))
      · exact Or.inr (Or.inr (Or.inr (Or.inl ⟨d, hd, Or.inl hm⟩)))
      · exact Or.inr (Or.inr (Or.inr (Or.inl ⟨d, hd, Or.inr hn⟩)))
      · exact Or.inr (Or.inr (Or.inr (Or.inr h)))

/-- Witness for `derived_artifact_dirty_iff` at a concrete environment: a
derived artifact (action 0) whose file exists with mtime 10, one clean input
with timestamp 10, no disk inputs, definition file at time 5: the artifact is
clean. -/

theorem derived_artifact_dirty_iff_witness :
    artifactStateInit
      { actionState := fun _ => ⟨true, [1], [0], []⟩,
        inputState := fun _ => ⟨false, 10⟩,
        diskExists := fun _ => true, diskMtime := fun _ => 0,
        defFileTimestamp := fun _ => 5 }
      (fun _ => true) (fun _ => 10) (some 0) 0 (some "out") =
      .ok ⟨false, 10⟩ := by
  have h := derived_artifact_dirty_iff
      { actionState := fun _ => ⟨true, [1], [0], []⟩,
        inputState := fun _ => ⟨false, 10⟩,
        diskExists := fun _ => true, diskMtime := fun _ => 0,
        defFileTimestamp := fun _ => 5 }
      (fun _ => true) (fun _ => 10) 0 0 "out" rfl
  have hd : decideIfDirty
      { actionState := fun _ => ⟨true, [1], [0], []⟩,
        inputState := fun _ => ⟨false, 10⟩,
        diskExists := fun _ => true, diskMtime := fun _ => 0,
        defFileTimestamp := fun _ => 5 }
      (some 0) 0 10 = false := by decide
  simpa [hd] using h.1

/-- C8: A source artifact (no producing action) with a computable real name is
never dirty when its file exists, and initialization raises a definition error
when the file is missing. -/

theorem source_artifact_never_dirty (env : DirtyEnv)
    (rootExists : String → Bool) (rootMtime : String → Int)
    (artifactId : Nat) (rn : String) :
    (rootExists rn = true →
      artifactStateInit env rootExists rootMtime none artifactId (some rn) =
        .ok ⟨false, rootMtime rn⟩) ∧
    (rootExists rn = false →
      artifactStateInit env rootExists rootMtime none artifactId (some rn) =
        .error (.definitionError "The required source file does not exist.")) := by
  constructor
  · intro hex
    simp [artifactStateInit, hex, decideIfDirty]
  · intro hmiss
    simp [artifactStateInit, hmiss, Option.isSome]

/-- Witness for `source_artifact_never_dirty`: a source file present with
mtime 7 yields a clean state; the same artifact with the file absent yields a
definition error. -/

theorem source_artifact_never_dirty_witness :
    (artifactStateInit
        { actionState := fun _ => ⟨true, [], [], []⟩,
          inputState := fun _ => ⟨false, 0⟩,
          diskExists := fun _ => true, diskMtime := fun _ => 0,
          defFileTimestamp := fun _ => 0 }
        (fun _ => true) (fun _ => 7) none 3 (some "srcfile") =
      .ok ⟨false, 7⟩) ∧
    (artifactStateInit
        { actionState := fun _ => ⟨true, [], [], []⟩,
          inputState := fun _ => ⟨false, 0⟩,
          diskExists := fun _ => true, diskMtime := fun _ => 0,
          defFileTimestamp := fun _ => 0 }
        (fun _ => false) (fun _ => 7) none 3 (some "srcfile") =
      .error (.definitionError "The required source file does not exist.")) := by
  constructor
  · exact (source_artifact_never_dirty _ _ _ 3 "srcfile").1 rfl
  · exact (source_artifact_never_dirty
      { actionState := fun _ => ⟨true, [], [], []⟩,
        inputState := fun _ => ⟨false, 0⟩,
        diskExists := fun _ => true, diskMtime := fun _ => 0,
        defFileTimestamp := fun _ => 0 }
      (fun _ => false) (fun _ => 7) 3 "srcfile").2 rfl

/-- Left-folding string concatenation over a list equals prepending the seed to
the concatenation of the mapped list. -/

theorem foldl_append_strConcat {α : Type} (f : α → String) (l : List α)
    (s : String) :
    l.foldl (fun a x => a ++ f x) s = s ++ strConcat (l.map f) := by
  induction l generalizing s with
  | nil => simp [strConcat]
  | cons a t ih =>
    simp only [List.foldl_cons, List.map_cons]
    rw [ih]
    show (s ++ f a) ++ strConcat (t.map f) = s ++ (f a ++ strConcat (t.map f))
    rw [String.append_assoc]

/-- After setting every key `f o` (for `o` in `l`) to the same value `v`, a
lookup returns `v` on those keys and is unchanged elsewhere. -/

theorem foldl_cacheSet_lookup (f : Nat → CacheKey) (v : Option String)
    (l : List Nat) (c : CacheMap) (k : CacheKey) :
    (l.foldl (fun c2 o => cacheSet c2 (f o) v) c) k =
      if k ∈ l.map f then some v else c k := by
  induction l generalizing c with
  | nil => simp
  | cons a t ih =>
    simp only [List.foldl_cons, ih, List.map_cons, List.mem_cons]
    by_cases hk : k ∈ t.map f
    · simp [hk]
    · by_cases hka : k = f a
      · simp [hk, hka, cacheSet]
      · simp [hk, hka, cacheSet]

/-- The skip flag of `cachingRun` is exactly the decision of `__can_skip`. -/

theorem cachingRun_skipped (env : CachingEnv) (cache : CacheMap)
    (inputs outputs : List Nat) (diskInputs : List String) :
    (cachingRun env cache inputs outputs diskInputs).skipped =
      (canSkip env cache inputs outputs diskInputs).1 := by
  by_cases h : (canSkip env cache inputs outputs diskInputs).1 <;>
    by_cases h2 : env.innerSucceeds <;>
      simp [cachingRun, h, h2]

/-- `__can_skip` says yes exactly when every output's cache entry holds the
same non-sentinel hash, that hash is the freshly computed one, every disk
input exists, and every output file exists. -/

theorem canSkip_true_iff (env : CachingEnv) (cache : CacheMap)
    (inputs : List Nat) (diskInputs : List String) (o0 : Nat) (rest : List Nat) :
    (canSkip env cache inputs (o0 :: rest) diskInputs).1 = true ↔
      ∃ h : String,
        (∀ o ∈ o0 :: rest, cacheGet cache (cacheKeyOf env o) = some h) ∧
        h = hashOf env.realNameMap env.rootRead inputs diskInputs env.diskRead
              (o0 :: rest) env.cmdHash ∧
        (∀ d ∈ diskInputs, env.diskExists d = true) ∧
        (∀ o ∈ o0 :: rest, env.rootExists (env.realNameMap o) = true) := by
  constructor
  · intro h
    cases hm : cacheGet cache (cacheKeyOf env o0) with
    | none => simp [canSkip, hm] at h
    | some lastHash =>
      by_cases hc1 : rest.all
          (fun o => decide (cacheGet cache (cacheKeyOf env o) = some lastHash))
      · by_cases hc2 : diskInputs.all env.diskExists
        · by_cases hc3 : hashOf env.realNameMap env.rootRead inputs diskInputs
              env.diskRead (o0 :: rest) env.cmdHash = lastHash
          · by_cases hc4 : (o0 :: rest).all
                (fun o => env.rootExists (env.realNameMap o))
            · refine ⟨lastHash, ?_, hc3.symm, ?_, ?_⟩
              · intro o ho
                rcases List.mem_cons.mp ho with rfl | ho2
                · exact hm
                · simpa using (List.all_eq_true.mp hc1) o ho2
              · intro d hd
                simpa using (List.all_eq_true.mp hc2) d hd
              · intro o ho
                simpa using (List.all_eq_true.mp hc4) o ho
            · simp [canSkip, hm, hc1, hc2, hc3, hc4] at h
          · simp [canSkip, hm, hc1, hc2, hc3] at h
        · simp [canSkip, hm, hc1, hc2] at h
      · simp [canSkip, hm, hc1] at h
  · rintro ⟨hv, hall, heq, hdisk, hout⟩
    subst heq
    have hm : cacheGet cache (cacheKeyOf env o0) =
        some (hashOf env.realNameMap env.rootRead inputs diskInputs env.diskRead
          (o0 :: rest) env.cmdHash) :=
      hall o0 (List.mem_cons_self o0 rest)
    have hcond : ∀ x ∈ rest, cacheGet cache (cacheKeyOf env x) =
        some (hashOf env.realNameMap env.rootRead inputs diskInputs env.diskRead
          (o0 :: rest) env.cmdHash) :=
      fun x hx => hall x (List.mem_cons_of_mem o0 hx)
    have hc2 : diskInputs.all env.diskExists := by
      simp only [List.all_eq_true]
      intro d hd
      exact hdisk d hd
    have hc4 : (o0 :: rest).all (fun o => env.rootExists (env.realNameMap o)) := by
      simp only [List.all_eq_true]
      intro o ho
      exact hout o ho
    have hcond2 : (rest.all fun o => decide (cacheGet cache (cacheKeyOf env o) =
        some (hashOf env.realNameMap env.rootRead inputs diskInputs env.diskRead
          (o0 :: rest) env.cmdHash))) = true := by
      simp only [List.all_eq_true, decide_eq_true_eq]
      exact hcond
    simp [canSkip, hm, hc2, hc4, hcond2]

/-- C2: With a non-empty output list, the caching runner skips the inner
runner exactly when every output's cache key maps to the same non-sentinel
prior hash, that hash equals the freshly computed one, every disk input still
exists, and every output file exists on disk; and on a skip all outputs are
touched and the runner reports success with a "no changes" message. -/

theorem caching_skip_iff (env : CachingEnv) (cache : CacheMap)
    (inputs : List Nat) (diskInputs : List String) (o0 : Nat) (rest : List Nat) :
    ((cachingRun env cache inputs (o0 :: rest) diskInputs).skipped = true ↔
      ∃ h : String,
        (∀ o ∈ o0 :: rest, cacheGet cache (cacheKeyOf env o) = some h) ∧
        h = hashOf env.realNameMap env.rootRead inputs diskInputs env.diskRead
              (o0 :: rest) env.cmdHash ∧
        (∀ d ∈ diskInputs, env.diskExists d = true) ∧
        (∀ o ∈ o0 :: rest, env.rootExists (env.realNameMap o) = true)) ∧
    ((cachingRun env cache inputs (o0 :: rest) diskInputs).skipped = true →
      (cachingRun env cache inputs (o0 :: rest) diskInputs).success = true ∧
      (cachingRun env cache inputs (o0 :: rest) diskInputs).touched =
        (o0 :: rest).map env.realNameMap ∧
      (cachingRun env cache inputs (o0 :: rest) diskInputs).message =
        some "no changes") := by
  constructor
  · rw [cachingRun_skipped]
    exact canSkip_true_iff env cache inputs diskInputs o0 rest
  · intro hs
    rw [cachingRun_skipped] at hs
    refine ⟨?_, ?_, ?_⟩ <;> simp [cachingRun, hs]

/-- Witness for `caching_skip_iff`: in `envSkip` with `cacheSkip` the action
with single output 0 is skipped, reported successful with "no changes", and
its output's real name is touched. -/

theorem caching_skip_iff_witness :
    (cachingRun envSkip cacheSkip [] [0] []).success = true ∧
    (cachingRun envSkip cacheSkip [] [0] []).touched = ["out"] ∧
    (cachingRun envSkip cacheSkip [] [0] []).message = some "no changes" := by
  have h := (caching_skip_iff envSkip cacheSkip [] [] 0 []).2 (by decide)
  refine ⟨h.1, ?_, h.2.2⟩
  rw [h.2.1]
  rfl

/-- C3: When the caching runner does not skip, the trace shows every output's
cache entry set to the sentinel before the inner runner is invoked, and the
recomputed hash is stored under every output's key only on success; on
failure every output's entry stays the sentinel, so the action cannot be
skipped on the next run. -/

theorem no_skip_sentinel_then_store (env : CachingEnv) (cache : CacheMap)
    (inputs outputs : List Nat) (diskInputs : List String)
    (h : (canSkip env cache inputs outputs diskInputs).1 = false) :
    ((cachingRun env cache inputs outputs diskInputs).trace =
      outputs.map (fun o => RunnerEvent.setSentinel (cacheKeyOf env o))
        ++ [RunnerEvent.invokeInner]
        ++ (if env.innerSucceeds then
              outputs.map (fun o => RunnerEvent.storeHash (cacheKeyOf env o)
                (storedHash env inputs outputs diskInputs
                  (canSkip env cache inputs outputs diskInputs).2))
            else [])) ∧
    (cachingRun env cache inputs outputs diskInputs).success =
      env.innerSucceeds ∧
    (env.innerSucceeds = false →
      (∀ o ∈ outputs,
        (cachingRun env cache inputs outputs diskInputs).cache
          (cacheKeyOf env o) = some none) ∧
      (∀ inputs2 disk2,
        (canSkip env (cachingRun env cache inputs outputs diskInputs).cache
          inputs2 outputs disk2).1 = false)) ∧
    (env.innerSucceeds = true →
      ∀ o ∈ outputs,
        (cachingRun env cache inputs outputs diskInputs).cache
          (cacheKeyOf env o) =
          some (some (storedHash env inputs outputs diskInputs
            (canSkip env cache inputs outputs diskInputs).2))) := by
  by_cases hi : env.innerSucceeds
  · refine ⟨by simp [cachingRun, h, hi], by simp [cachingRun, h, hi], ?_, ?_⟩
    · intro hq
      simp [hq] at hi
    · intro _ o ho
      simp only [cachingRun, h, hi]
      simp only [Bool.false_eq_true, if_false, if_true]
      rw [foldl_cacheSet_lookup]
      rw [if_pos (List.mem_map_of_mem (cacheKeyOf env) ho)]
  · refine ⟨by simp [cachingRun, h, hi], by simp [cachingRun, h, hi], ?_, ?_⟩
    · intro _
      have hcache : ∀ o ∈ outputs,
          (cachingRun env cache inputs outputs diskInputs).cache
            (cacheKeyOf env o) = some none := by
        intro o ho
        simp only [cachingRun, h, hi]
        simp only [Bool.false_eq_true, if_false]
        rw [foldl_cacheSet_lookup]
        rw [if_pos (List.mem_map_of_mem (cacheKeyOf env) ho)]
      refine ⟨hcache, ?_⟩
      intro inputs2 disk2
      cases outputs with
      | nil => simp [canSkip]
      | cons a t =>
        have hka := hcache a (List.mem_cons_self a t)
        simp [canSkip, cacheGet, hka]
    · intro hq
      simp [hq] at hi

/-- Witness for `no_skip_sentinel_then_store`: with an empty cache and a
failing inner runner, after the run the output's cache entry is the sentinel
and the action still cannot be skipped. -/

theorem no_skip_sentinel_then_store_witness :
    (cachingRun envFail (fun _ => none) [] [0] []).cache ("cfg", "out") =
      some none ∧
    (canSkip envFail (cachingRun envFail (fun _ => none) [] [0] []).cache
      [] [0] []).1 = false := by
  have h := no_skip_sentinel_then_store envFail (fun _ => none) [] [0] [] rfl
  refine ⟨?_, (h.2.2.1 rfl).2 [] []⟩
  have h0 := (h.2.2.1 rfl).1 0 (by simp)
  simpa using h0

/-- C4: The caching runner's hash is the digest of exactly this byte stream:
per input (ascending real name) "i" with length-prefixed name and contents,
per disk input (sorted) "d" with length-prefixed path and contents, per
output (ascending real name) "o" with length-prefixed name only, then the
command's own hash bytes; the three name lists are sorted ascending and are
permutations of the given names. -/

theorem hash_stream_described (realNameMap : Nat → String)
    (rootRead : String → String) (inputs : List Nat) (diskInputs : List String)
    (diskRead : String → String) (outputs : List Nat) (cmdHash : String) :
    hashOf realNameMap rootRead inputs diskInputs diskRead outputs cmdHash =
      hashStreamDescribed realNameMap rootRead inputs diskInputs diskRead
        outputs cmdHash ∧
    List.Sorted (· ≤ ·) (sortNames (inputs.map realNameMap)) ∧
    List.Perm (sortNames (inputs.map realNameMap)) (inputs.map realNameMap) ∧
    List.Sorted (· ≤ ·) (sortNames diskInputs) ∧
    List.Perm (sortNames diskInputs) diskInputs ∧
    List.Sorted (· ≤ ·) (sortNames (outputs.map realNameMap)) ∧
    List.Perm (sortNames (outputs.map realNameMap)) (outputs.map realNameMap) := by
  refine ⟨?_, List.sorted_insertionSort _ _, List.perm_insertionSort _ _,
    List.sorted_insertionSort _ _, List.perm_insertionSort _ _,
    List.sorted_insertionSort _ _, List.perm_insertionSort _ _⟩
  unfold hashOf hashStreamDescribed
  have h1 : (fun (a : String) (n : String) =>
      a ++ "i" ++ lengthPrefixed n ++ lengthPrefixed (rootRead n)) =
      fun a n => a ++ ("i" ++ lengthPrefixed n ++ lengthPrefixed (rootRead n)) := by
    funext a n
    simp [String.append_assoc]
  have h2 : (fun (a : String) (d : String) =>
      a ++ "d" ++ lengthPrefixed d ++ lengthPrefixed (diskRead d)) =
      fun a d => a ++ ("d" ++ lengthPrefixed d ++ lengthPrefixed (diskRead d)) := by
    funext a d
    simp [String.append_assoc]
  have h3 : (fun (a : String) (n : String) => a ++ "o" ++ lengthPrefixed n) =
      fun a n => a ++ ("o" ++ lengthPrefixed n) := by
    funext a n
    simp [String.append_assoc]
  simp only [h1, h2, h3, foldl_append_strConcat]
  show "" ++ _ ++ _ ++ _ ++ _ = _
  simp [String.append_assoc]

/-- C10: An action with an empty output list is never skipped: `__can_skip`
returns false without consulting the cache, and the inner runner is invoked
regardless of the cache contents. -/

theorem no_outputs_never_skip (env : CachingEnv) (cache : CacheMap)
    (inputs : List Nat) (diskInputs : List String) :
    canSkip env cache inputs [] diskInputs = (false, none) ∧
    (cachingRun env cache inputs [] diskInputs).skipped = false ∧
    RunnerEvent.invokeInner ∈ (cachingRun env cache inputs [] diskInputs).trace := by
  refine ⟨rfl, ?_, ?_⟩
  · by_cases hi : env.innerSucceeds <;> simp [cachingRun, canSkip, hi]
  · by_cases hi : env.innerSucceeds <;> simp [cachingRun, canSkip, hi]

/-- C5: Enumerating a Conditional command reads the condition artifact
(registering it as an input) and then reports only the true branch's
artifacts when the condition reads "true", only the false branch's (when one
exists) when it reads "false", and neither branch's when the value is not
yet known. -/

theorem conditional_enumeration (envRead : Nat → Option String) (c : Nat)
    (tCmd : Command) (fCmd : Option Command) (st : EnumResult) :
    (envRead c = some "true" →
      enumerateArtifacts envRead (.conditional c tCmd fCmd) st =
        enumerateArtifacts envRead tCmd (addInput c st)) ∧
    (envRead c = some "false" →
      enumerateArtifacts envRead (.conditional c tCmd fCmd) st =
        (match fCmd with
         | some fc => enumerateArtifacts envRead fc (addInput c st)
         | none => addInput c st)) ∧
    (envRead c = none →
      enumerateArtifacts envRead (.conditional c tCmd fCmd) st =
        addInput c st) := by
  refine ⟨?_, ?_, ?_⟩ <;> intro h
  · rw [enumerateArtifacts]
    simp [h]
  · rw [enumerateArtifacts]
    simp only [h]
    cases fCmd <;> simp [enumerateFalseBranch]
  · rw [enumerateArtifacts]
    simp [h]

/-- Witness for `conditional_enumeration`: a conditional whose condition is
not yet known contributes only the condition itself as an input. -/

theorem conditional_enumeration_witness :
    enumerateArtifacts (fun _ => none)
      (.conditional 5 (.echo "x" 7) none) ⟨[], [], []⟩ = ⟨[5], [], []⟩ := by
  have h := (conditional_enumeration (fun _ => none) 5 (.echo "x" 7) none
    ⟨[], [], []⟩).2.2 rfl
  simpa [addInput] using h

/-- C6: A Subprocess command with an exit-status capture artifact always
returns success and writes "true" on exit code zero, "false" otherwise, as
its final context write; without such an artifact it returns success exactly
when the exit code is zero. -/

theorem subprocess_exit_status (spec : SubprocessSpec) (env : SubprocEnv)
    (formattedArgs : List String) :
    (∀ a, spec.captureExitStatus = some a →
      (subprocessRun spec env formattedArgs).success = true ∧
      (subprocessRun spec env formattedArgs).writes.getLast? =
        some (a, if env.exitCode = 0 then "true" else "false")) ∧
    (spec.captureExitStatus = none →
      ((subprocessRun spec env formattedArgs).success = true ↔
        env.exitCode = 0)) := by
  constructor
  · intro a ha
    constructor
    · simp [subprocessRun, ha]
    · simp [subprocessRun, ha]
  · intro ha
    by_cases he : env.exitCode = 0 <;> simp [subprocessRun, ha, he]

/-- Witness for `subprocess_exit_status`: exit code 3 with a status capture
artifact yields success with a final "false" write; without the capture
artifact the same exit code is a failure. -/

theorem subprocess_exit_status_witness :
    (subprocessRun ⟨none, none, some 2⟩ ⟨3, "so", "se", fun _ => none⟩ []).success
      = true ∧
    (subprocessRun ⟨none, none, some 2⟩
        ⟨3, "so", "se", fun _ => none⟩ []).writes.getLast? = some (2, "false") ∧
    ¬((subprocessRun ⟨none, none, none⟩
        ⟨3, "so", "se", fun _ => none⟩ []).success = true) := by
  have h1 := (subprocess_exit_status ⟨none, none, some 2⟩
    ⟨3, "so", "se", fun _ => none⟩ []).1 2 rfl
  have h2 := (subprocess_exit_status ⟨none, none, none⟩
    ⟨3, "so", "se", fun _ => none⟩ []).2 rfl
  refine ⟨h1.1, ?_, ?_⟩
  · simpa using h1.2
  · rw [h2]
    decide

/-- C7: `add_action` is a no-op on an already-pending action state; otherwise
it marks the state pending, increments the pending counter by exactly one,
and then appends the state to the ready queue when it is ready, or recurses
into every state of its blocking set when it is not. -/

theorem add_action_spec (env : SchedEnv) (fuel a : Nat) (s : BuilderState) :
    (s.isPending a = true → addAction env (fuel + 1) a s = s) ∧
    (s.isPending a = false →
      (markPending a s).numPending = s.numPending + 1 ∧
      (markPending a s).isPending a = true ∧
      (env.isReady a = true →
        addAction env (fuel + 1) a s =
          { markPending a s with queue := (markPending a s).queue ++ [a] }) ∧
      (env.isReady a = false →
        addAction env (fuel + 1) a s =
          (env.blocking a).foldl (fun st b => addAction env fuel b st)
            (markPending a s))) := by
  refine ⟨?_, ?_⟩
  · intro h
    simp [addAction, h]
  · intro h
    refine ⟨rfl, by simp [markPending], ?_, ?_⟩
    · intro hr
      simp [addAction, h, hr]
    · intro hr
      simp [addAction, h, hr]

/-- Witness for `add_action_spec`: adding a ready, unpended action to the
empty builder marks it pending, raises the counter to one, and enqueues
it. -/

theorem add_action_spec_witness :
    (addAction envSched 1 0 emptyBuilder).numPending = 1 ∧
    (addAction envSched 1 0 emptyBuilder).queue = [0] ∧
    (addAction envSched 1 0 emptyBuilder).isPending 0 = true := by
  have h := (add_action_spec envSched 0 0 emptyBuilder).2 rfl
  have he := h.2.2.1 rfl
  refine ⟨?_, ?_, ?_⟩
  · show (addAction envSched (0 + 1) 0 emptyBuilder).numPending = 1
    rw [he]
    rfl
  · show (addAction envSched (0 + 1) 0 emptyBuilder).queue = [0]
    rw [he]
    rfl
  · show (addAction envSched (0 + 1) 0 emptyBuilder).isPending 0 = true
    rw [he]
    simp [markPending]

/-- C9 (amended): A ready action state never becomes un-ready:
`update_readiness` on an already-ready state returns immediately with no
modification, so `is_ready` stays true under any sequence of readiness
re-evaluations, whatever dirty inputs those re-evaluations discover. -/

theorem ready_state_stays_ready (envs : List ReadinessEnv) (st : ActionStateM)
    (h : st.isReady = true) :
    (∀ env2, updateReadiness env2 st = .ok (st, false)) ∧
    (envs.foldl applyUpdate st).isReady = true := by
  constructor
  · intro env2
    simp [updateReadiness, h]
  · induction envs generalizing st with
    | nil => simpa using h
    | cons e rest ih =>
      have hstep : applyUpdate st e = st := by
        simp [applyUpdate, updateReadiness, h]
      simp only [List.foldl_cons, hstep]
      exact ih st h

/-- Witness for `ready_state_stays_ready`: the ready state stays ready
through a re-evaluation that reports a dirty input. -/

theorem ready_state_stays_ready_witness :
    (List.foldl applyUpdate readyState [envDiscovery]).isReady = true :=
  (ready_state_stays_ready [envDiscovery] readyState rfl).2

/-- Counterexample to C9 as stated: under `envDiscovery` a dirty input
(artifact 1, with un-ready producer 9) is discoverable — a not-yet-ready
state would record it as blocking — yet `update_readiness` on the ready
state returns it unchanged, so `is_ready` never transitions from true back
to false. -/

theorem ready_never_unready_counterexample :
    readyState.isReady = true ∧
    envDiscovery.isDirty 1 = true ∧
    1 ∈ envDiscovery.enumInputs ∧
    updateReadiness envDiscovery readyState = .ok (readyState, false) ∧
    (updateReadiness envDiscovery { readyState with isReady := false } =
      .ok ({ readyState with isReady := false, blocking := [9] }, false)) := by
  refine ⟨rfl, by decide, by decide, rfl, rfl⟩

end Sebs
